import Mathlib

/-!
# Verification of the options strategy valuation engine

Shallow embedding of `src/js/optionsStrategies.js` (class `OptionsStrategies`)
over exact rational arithmetic.  JavaScript numbers are modelled as `ℚ`;
object fields that may be absent (`undefined`) are modelled as `Option ℚ`;
the external Black-Scholes pricer (`BlackScholes.getOptionPrice`, not part of
this module) is an explicit function parameter; the C-style `for` loop of
`generatePriceRange` is modelled with explicit fuel, `none` meaning the loop
has not terminated within the given fuel.
-/

namespace OptionsStrategies

set_option maxRecDepth 200000

/-- Leg action tag: `'buy' | 'sell' | 'own'`. -/
inductive Action
  | buy
  | sell
  | own
deriving DecidableEq, Repr

/-- Instrument type tag: `'call' | 'put' | 'stock'`. -/
inductive InstrType
  | call
  | put
  | stock
deriving DecidableEq, Repr

/-- One template leg of a strategy definition (static catalog data). -/
structure TemplateLeg where
  action : Action
  type : InstrType
  quantity : ℚ
  strikeOffset : ℚ := 0
deriving DecidableEq, Repr

/-- A strategy definition from the static `strategies` catalog. -/
structure Strategy where
  name : String
  legs : List TemplateLeg
deriving DecidableEq, Repr

/-- A concrete leg instance.  `riskFreeRate` and `volatility` may be absent
(`undefined` in JS), which matters because the source reads them through
`leg.riskFreeRate || 0.05` and `leg.volatility || 0.25`. -/
structure Leg where
  strike : ℚ := 0
  premium : ℚ := 0
  costBasis : ℚ := 0
  riskFreeRate : Option ℚ := none
  volatility : Option ℚ := none
deriving DecidableEq, Repr

/-- Result of `validateStrategy`. -/
structure ValidationResult where
  isValid : Bool
  errors : List String
deriving DecidableEq, Repr

/-- The external pricer `BlackScholes.getOptionPrice`, abstracted: arguments
are the fields of the option object `(type, strike, timeToExpiry,
riskFreeRate, volatility)` followed by the stock price. -/
def Pricer : Type := InstrType → ℚ → ℚ → ℚ → ℚ → ℚ → ℚ

/-- JavaScript `x || d` for a possibly-absent numeric field: `undefined`
and `0` are falsy, every other rational is truthy. -/
def jsOr (x : Option ℚ) (d : ℚ) : ℚ :=
  match x with
  | none => d
  | some v => if v = 0 then d else v

/-- Catalog entry `'long-call'`. -/
def longCall : Strategy :=
  { name := "Long Call"
    legs := [{ action := .buy, type := .call, quantity := 1 }] }

/-- Catalog entry `'covered-call'`. -/
def coveredCall : Strategy :=
  { name := "Covered Call"
    legs := [{ action := .own, type := .stock, quantity := 100 },
             { action := .sell, type := .call, quantity := 1 }] }

/-- `calculateProfitLoss(strategy, legs, stockPrice, timeToExpiry)`:
`legs.forEach((leg, index))` pairs each concrete leg with
`strategy.legs[index]` (skipping legs with no matching template), computes a
per-leg profit/loss and accumulates the sum.  At `timeToExpiry == 0` an
option leg is worth its intrinsic value, otherwise the external pricer is
consulted with `leg.riskFreeRate || 0.05` and `leg.volatility || 0.25`. -/
def calculateProfitLoss (pricer : Pricer) (strategy : Strategy) (legs : List Leg)
    (stockPrice : ℚ) (timeToExpiry : ℚ) : ℚ :=
  legs.enum.foldl (fun totalPL p =>
    match strategy.legs[p.1]? with
    | none => totalPL
    | some strategyLeg =>
      let leg := p.2
      let legPL : ℚ :=
        if strategyLeg.type = InstrType.stock then
          if strategyLeg.action = Action.own then
            (stockPrice - leg.costBasis) * strategyLeg.quantity
          else 0
        else
          let optionValue : ℚ :=
            if timeToExpiry = 0 then
              if strategyLeg.type = InstrType.call then
                max (stockPrice - leg.strike) 0
              else
                max (leg.strike - stockPrice) 0
            else
              pricer strategyLeg.type leg.strike timeToExpiry
                (jsOr leg.riskFreeRate (5/100)) (jsOr leg.volatility (25/100))
                stockPrice
          if strategyLeg.action = Action.buy then
            (optionValue - leg.premium) * strategyLeg.quantity * 100
          else if strategyLeg.action = Action.sell then
            (leg.premium - optionValue) * strategyLeg.quantity * 100
          else 0
      totalPL + legPL) 0

/-- `calculateProfitLossArray`: map `calculateProfitLoss` over the prices. -/
def calculateProfitLossArray (pricer : Pricer) (strategy : Strategy)
    (legs : List Leg) (stockPrices : List ℚ) (timeToExpiry : ℚ) : List ℚ :=
  stockPrices.map fun price => calculateProfitLoss pricer strategy legs price timeToExpiry

/-- `Math.round(price * 100) / 100`: JavaScript `Math.round` is
`⌊x + 1/2⌋` (round half toward positive infinity). -/
def round2 (q : ℚ) : ℚ :=
  (⌊q * 100 + 1/2⌋ : ℚ) / 100

/-- The loop `for (let price = minPrice; price <= maxPrice; price += step)
prices.push(Math.round(price*100)/100)`, with explicit fuel; `none` means
the loop has not reached `price > maxPrice` within `fuel` iterations
(in particular the loop diverges when `step = 0` and `price ≤ maxPrice`). -/
def genFrom (maxPrice step : ℚ) : Nat → ℚ → Option (List ℚ)
  | 0, price => if price ≤ maxPrice then none else some []
  | fuel + 1, price =>
    if price ≤ maxPrice then
      (genFrom maxPrice step fuel (price + step)).map fun l => round2 price :: l
    else some []

/-- `generatePriceRange(currentPrice, rangeFactor)`:
`minPrice = currentPrice*(2-rangeFactor)`, `maxPrice = currentPrice*rangeFactor`,
`step = (maxPrice-minPrice)/200`, then the push loop from `minPrice`. -/
def generatePriceRange (currentPrice rangeFactor : ℚ) (fuel : Nat) : Option (List ℚ) :=
  let minPrice := currentPrice * (2 - rangeFactor)
  let maxPrice := currentPrice * rangeFactor
  let step := (maxPrice - minPrice) / 200
  genFrom maxPrice step fuel minPrice

/-- The sign-change test of `findBreakevens`:
`(profits[i-1] <= 0 && profits[i] >= 0) || (profits[i-1] >= 0 && profits[i] <= 0)`. -/
def isCrossing (y0 y1 : ℚ) : Bool :=
  (decide (y0 ≤ 0) && decide (0 ≤ y1)) || (decide (0 ≤ y0) && decide (y1 ≤ 0))

/-- The linear interpolation of `findBreakevens`:
`ratio = |y0| / (|y0| + |y1|)`, `breakeven = x0 + ratio * (x1 - x0)`. -/
def interpolate (x0 x1 y0 y1 : ℚ) : ℚ :=
  x0 + (|y0| / (|y0| + |y1|)) * (x1 - x0)

/-- The scan `for (let i = 1; i < profits.length; i++)` of `findBreakevens`,
walking the price grid and profit curve in parallel. -/
def crossScan : List ℚ → List ℚ → List ℚ
  | x0 :: x1 :: xs, y0 :: y1 :: ys =>
    (if isCrossing y0 y1 then [interpolate x0 x1 y0 y1] else []) ++
      crossScan (x1 :: xs) (y1 :: ys)
  | _, _ => []

/-- `findBreakevens(strategy, legs, currentPrice)`: expiration profit curve
over `generatePriceRange(currentPrice)` (default range factor `1.5`), then
the interpolating sign-change scan. -/
def findBreakevens (pricer : Pricer) (strategy : Strategy) (legs : List Leg)
    (currentPrice : ℚ) (fuel : Nat) : Option (List ℚ) :=
  (generatePriceRange currentPrice (3/2) fuel).map fun priceRange =>
    let profits := calculateProfitLossArray pricer strategy legs priceRange 0
    crossScan priceRange profits

/-- The unbounded-loss edge test of `calculateMaxLoss`:
`(profits[0] < profits[1] && profits[0] === maxLoss) ||
 (profits[n-1] < profits[n-2] && profits[n-1] === maxLoss)`;
a comparison against a missing element (`undefined`) is false. -/
def edgeFall (profits : List ℚ) (maxLoss : WithTop ℚ) : Bool :=
  (match (profits[0]? : Option ℚ), (profits[1]? : Option ℚ) with
   | some a, some b => decide (a < b) && decide ((a : WithTop ℚ) = maxLoss)
   | _, _ => false) ||
  (match (profits[profits.length - 1]? : Option ℚ), (profits[profits.length - 2]? : Option ℚ) with
   | some a, some b => decide (a < b) && decide ((a : WithTop ℚ) = maxLoss)
   | _, _ => false)

/-- `calculateMaxLoss(strategy, legs, currentPrice)`: expiration curve over
`generatePriceRange(currentPrice, 2)`, `maxLoss = Math.min(...profits)`
(`⊤` plays the role of `Infinity` on an empty spread), returning `-Infinity`
(modelled `⊥`) when the curve is still falling at an edge that attains the
minimum, and the sampled minimum otherwise. -/
def calculateMaxLoss (pricer : Pricer) (strategy : Strategy) (legs : List Leg)
    (currentPrice : ℚ) (fuel : Nat) : Option (WithBot (WithTop ℚ)) :=
  (generatePriceRange currentPrice 2 fuel).map fun priceRange =>
    let profits := calculateProfitLossArray pricer strategy legs priceRange 0
    let maxLoss := profits.minimum
    if edgeFall profits maxLoss then ⊥ else (maxLoss : WithBot (WithTop ℚ))

/-- `calculateNetPremium(strategy, legs)`: accumulate
`±premium*quantity*100` over legs paired with their templates, skipping
stock legs and legs with no matching template. -/
def calculateNetPremium (strategy : Strategy) (legs : List Leg) : ℚ :=
  legs.enum.foldl (fun netPremium p =>
    match strategy.legs[p.1]? with
    | none => netPremium
    | some strategyLeg =>
      if strategyLeg.type = InstrType.stock then netPremium
      else if strategyLeg.action = Action.buy then
        netPremium + p.2.premium * strategyLeg.quantity * 100
      else if strategyLeg.action = Action.sell then
        netPremium - p.2.premium * strategyLeg.quantity * 100
      else netPremium) 0

/-- `validateStrategy(strategy, legs)`.  A `null` strategy is `none`.  The
JS truthiness tests are spelled out: `!leg.strike || leg.strike <= 0` is
`strike = 0 ∨ strike ≤ 0`, and `!leg.premium || leg.premium < 0` is
`premium = 0 ∨ premium < 0` (so a zero premium is flagged). -/
def validateStrategy (strategy : Option Strategy) (legs : List Leg) : ValidationResult :=
  match strategy with
  | none => { isValid := false, errors := ["Invalid strategy selected"] }
  | some strat =>
    let errors0 : List String :=
      if legs.length ≠ strat.legs.length then
        ["Number of legs does not match strategy requirements"]
      else []
    let errors := legs.enum.foldl (fun errs p =>
      match strat.legs[p.1]? with
      | none => errs
      | some strategyLeg =>
        if strategyLeg.type = InstrType.stock then errs
        else
          let errs1 :=
            if p.2.strike = 0 ∨ p.2.strike ≤ 0 then
              errs ++ ["Leg " ++ toString (p.1 + 1) ++ ": Invalid strike price"]
            else errs
          if p.2.premium = 0 ∨ p.2.premium < 0 then
            errs1 ++ ["Leg " ++ toString (p.1 + 1) ++ ": Invalid premium"]
          else errs1) errors0
    { isValid := errors.isEmpty, errors := errors }

/-- A pricer instance that is never consulted (all claims below that use it
evaluate at `timeToExpiry = 0`, where the source takes the intrinsic-value
branch). -/
def unusedPricer : Pricer := fun _ _ _ _ _ _ => 0

/-- A pricer instance returning its volatility argument, used to observe
which volatility the engine actually passes down. -/
def volPricer : Pricer := fun _ _ _ _ volatility _ => volatility

/-- Spec-side formalisation of the unbounded-loss condition of §4.2:
"loss is reported as `-∞` if either edge sample is the minimum and strictly
lower than its inward neighbor".  Stated over the profit curve directly,
independently of the implementation's index bookkeeping. -/
def specEdgeUnboundedLoss (ps : List ℚ) : Prop :=
  (∃ a b t, ps = a :: b :: t ∧ a < b ∧ ∀ y ∈ ps, a ≤ y) ∨
  (∃ a b t, ps.reverse = a :: b :: t ∧ a < b ∧ ∀ y ∈ ps, a ≤ y)

/-! ## Lemmas about the price-grid loop -/

theorem genFrom_eq_nil_of_gt (maxPrice step price : ℚ) (h : ¬ price ≤ maxPrice)
    (fuel : Nat) : genFrom maxPrice step fuel price = some [] := by
  cases fuel <;> simp [genFrom, h]

theorem genFrom_succ_of_le (maxPrice step price : ℚ) (hp : price ≤ maxPrice) (fuel : Nat) :
    genFrom maxPrice step (fuel + 1) price =
      (genFrom maxPrice step fuel (price + step)).map (fun l => round2 price :: l) := by
  simp [genFrom, hp]

theorem genFrom_terminates (maxPrice step : ℚ) :
    ∀ (fuel : Nat) (price : ℚ), maxPrice < price + fuel * step →
      ∃ l, genFrom maxPrice step fuel price = some l := by
  intro fuel
  induction fuel with
  | zero =>
    intro price h
    push_cast at h
    exact ⟨[], genFrom_eq_nil_of_gt _ _ _ (not_le.mpr (by linarith)) 0⟩
  | succ n ih =>
    intro price h
    by_cases hp : price ≤ maxPrice
    · obtain ⟨l, hl⟩ := ih (price + step) (by push_cast at h ⊢; linarith)
      exact ⟨round2 price :: l, by rw [genFrom_succ_of_le _ _ _ hp, hl]; rfl⟩
    · exact ⟨[], genFrom_eq_nil_of_gt _ _ _ hp _⟩

theorem genFrom_none_of_step_zero (maxPrice : ℚ) :
    ∀ (fuel : Nat) (price : ℚ), price ≤ maxPrice →
      genFrom maxPrice 0 fuel price = none := by
  intro fuel
  induction fuel with
  | zero => intro price hp; simp [genFrom, hp]
  | succ n ih =>
    intro price hp
    rw [genFrom_succ_of_le _ _ _ hp, add_zero, ih price hp]
    rfl

theorem genFrom_some_cons (maxPrice step : ℚ) (fuel : Nat) (price : ℚ) (l : List ℚ)
    (hp : price ≤ maxPrice) (h : genFrom maxPrice step fuel price = some l) :
    ∃ t, l = round2 price :: t := by
  cases fuel with
  | zero => simp [genFrom, hp] at h
  | succ n =>
    rw [genFrom_succ_of_le _ _ _ hp] at h
    obtain ⟨t, _, rfl⟩ := Option.map_eq_some'.mp h
    exact ⟨t, rfl⟩

theorem genFrom_some_shape (maxPrice step : ℚ) (fuel : Nat) (price : ℚ) (l : List ℚ)
    (h : genFrom maxPrice step fuel price = some l) :
    l = [] ∨ ∃ t, l = round2 price :: t := by
  by_cases hp : price ≤ maxPrice
  · exact Or.inr (genFrom_some_cons _ _ _ _ _ hp h)
  · rw [genFrom_eq_nil_of_gt _ _ _ hp] at h
    exact Or.inl (Option.some_inj.mp h).symm

theorem round2_mono {p q : ℚ} (h : p ≤ q) : round2 p ≤ round2 q := by
  unfold round2
  have h1 : (⌊p * 100 + 1/2⌋ : ℤ) ≤ ⌊q * 100 + 1/2⌋ := Int.floor_le_floor (by linarith)
  have h2 : ((⌊p * 100 + 1/2⌋ : ℤ) : ℚ) ≤ ((⌊q * 100 + 1/2⌋ : ℤ) : ℚ) := by exact_mod_cast h1
  linarith

theorem round2_strict {p q : ℚ} (h : p + 1/100 ≤ q) : round2 p < round2 q := by
  unfold round2
  have h0 : ⌊p * 100 + 1/2⌋ + 1 = ⌊p * 100 + 1/2 + 1⌋ := (Int.floor_add_one _).symm
  have h1 : ⌊p * 100 + 1/2⌋ + 1 ≤ ⌊q * 100 + 1/2⌋ := by
    rw [h0]; exact Int.floor_le_floor (by linarith)
  have h2 : ((⌊p * 100 + 1/2⌋ : ℤ) : ℚ) + 1 ≤ ((⌊q * 100 + 1/2⌋ : ℤ) : ℚ) := by
    exact_mod_cast h1
  linarith

theorem genFrom_chain_le (maxPrice step : ℚ) (hs : 0 ≤ step) :
    ∀ (fuel : Nat) (price : ℚ) (l : List ℚ),
      genFrom maxPrice step fuel price = some l → l.Chain' (· ≤ ·) := by
  intro fuel
  induction fuel with
  | zero =>
    intro price l h
    by_cases hp : price ≤ maxPrice
    · simp [genFrom, hp] at h
    · rw [genFrom_eq_nil_of_gt _ _ _ hp] at h
      rw [← Option.some_inj.mp h]
      exact List.chain'_nil
  | succ n ih =>
    intro price l h
    by_cases hp : price ≤ maxPrice
    · rw [genFrom_succ_of_le _ _ _ hp] at h
      obtain ⟨t, ht, rfl⟩ := Option.map_eq_some'.mp h
      have hchain := ih (price + step) t ht
      rcases genFrom_some_shape _ _ _ _ _ ht with rfl | ⟨t', rfl⟩
      · exact List.chain'_singleton _
      · exact List.Chain'.cons (round2_mono (by linarith)) hchain
    · rw [genFrom_eq_nil_of_gt _ _ _ hp] at h
      rw [← Option.some_inj.mp h]
      exact List.chain'_nil

theorem genFrom_chain_lt (maxPrice step : ℚ) (hs : 1/100 ≤ step) :
    ∀ (fuel : Nat) (price : ℚ) (l : List ℚ),
      genFrom maxPrice step fuel price = some l → l.Chain' (· < ·) := by
  intro fuel
  induction fuel with
  | zero =>
    intro price l h
    by_cases hp : price ≤ maxPrice
    · simp [genFrom, hp] at h
    · rw [genFrom_eq_nil_of_gt _ _ _ hp] at h
      rw [← Option.some_inj.mp h]
      exact List.chain'_nil
  | succ n ih =>
    intro price l h
    by_cases hp : price ≤ maxPrice
    · rw [genFrom_succ_of_le _ _ _ hp] at h
      obtain ⟨t, ht, rfl⟩ := Option.map_eq_some'.mp h
      have hchain := ih (price + step) t ht
      rcases genFrom_some_shape _ _ _ _ _ ht with rfl | ⟨t', rfl⟩
      · exact List.chain'_singleton _
      · exact List.Chain'.cons (round2_strict (by linarith)) hchain
    · rw [genFrom_eq_nil_of_gt _ _ _ hp] at h
      rw [← Option.some_inj.mp h]
      exact List.chain'_nil

theorem generatePriceRange_pos_spec (c r : ℚ) (hc : 0 < c) (hr : 1 < r) :
    ∃ l, generatePriceRange c r 201 = some l ∧ l ≠ [] ∧ l.Chain' (· ≤ ·) ∧
      (1 ≤ c * (r - 1) → l.Chain' (· < ·)) := by
  have hstep : (c * r - c * (2 - r)) / 200 = c * (r - 1) / 100 := by ring
  have hpos : 0 < c * (r - 1) / 100 :=
    div_pos (mul_pos hc (by linarith)) (by norm_num)
  have hterm : c * r < c * (2 - r) + (201 : Nat) * ((c * r - c * (2 - r)) / 200) := by
    push_cast
    have key : c * (2 - r) + 201 * ((c * r - c * (2 - r)) / 200) - c * r
        = c * (r - 1) / 100 := by ring
    linarith
  simp only [generatePriceRange]
  obtain ⟨l, hl⟩ := genFrom_terminates (c * r) _ 201 (c * (2 - r)) hterm
  have hple : c * (2 - r) ≤ c * r := by nlinarith
  have hstep0 : 0 ≤ (c * r - c * (2 - r)) / 200 := by rw [hstep]; linarith
  refine ⟨l, hl, ?_, genFrom_chain_le _ _ hstep0 _ _ _ hl, fun h1 => ?_⟩
  · obtain ⟨t, rfl⟩ := genFrom_some_cons _ _ _ _ _ hple hl
    simp
  · refine genFrom_chain_lt _ _ ?_ _ _ _ hl
    rw [hstep]
    linarith

theorem generatePriceRange_one_none (c : ℚ) (fuel : Nat) :
    generatePriceRange c 1 fuel = none := by
  simp only [generatePriceRange]
  have h1 : (c * 1 - c * (2 - 1)) / 200 = 0 := by ring
  rw [h1]
  exact genFrom_none_of_step_zero _ fuel _ (le_of_eq (by ring))

theorem generatePriceRange_lt_one (c r : ℚ) (hc : 0 < c) (hr : r < 1) (fuel : Nat) :
    generatePriceRange c r fuel = some [] := by
  simp only [generatePriceRange]
  exact genFrom_eq_nil_of_gt _ _ _ (not_le.mpr (by nlinarith)) fuel

/-- Folding an indexed accumulation over `enumFrom n`, where each leg is
combined with the template found at its index, is summation over the zip
with the templates dropped to position `n`. -/
theorem foldl_enumFrom_zip_sum (δ : Leg → TemplateLeg → ℚ) (tlegs : List TemplateLeg) :
    ∀ (legs : List Leg) (n : Nat) (acc : ℚ),
      (List.enumFrom n legs).foldl
        (fun a p => match tlegs[p.1]? with | none => a | some t => a + δ p.2 t) acc
      = acc + ((legs.zip (tlegs.drop n)).map fun p => δ p.1 p.2).sum := by
  intro legs
  induction legs with
  | nil => intro n acc; simp
  | cons leg legs ih =>
    intro n acc
    simp only [List.enumFrom, List.foldl_cons]
    rw [ih (n + 1)]
    by_cases hn : n < tlegs.length
    · rw [List.drop_eq_getElem_cons hn]
      simp only [List.getElem?_eq_getElem hn, List.zip_cons_cons, List.map_cons,
        List.sum_cons]
      ring
    · have h1 : tlegs[n]? = none := List.getElem?_eq_none (le_of_not_lt hn)
      have h2 : tlegs.drop n = [] := List.drop_eq_nil_of_le (le_of_not_lt hn)
      have h3 : tlegs.drop (n + 1) = [] := List.drop_eq_nil_of_le (by omega)
      simp [h1, h2, h3]

/-- `calculateNetPremium` as a sum over legs zipped with their templates. -/
theorem calculateNetPremium_eq_sum (strategy : Strategy) (legs : List Leg) :
    calculateNetPremium strategy legs
      = ((legs.zip strategy.legs).map fun p =>
          if p.2.type = InstrType.stock then 0
          else if p.2.action = Action.buy then p.1.premium * p.2.quantity * 100
          else if p.2.action = Action.sell then -(p.1.premium * p.2.quantity * 100)
          else 0).sum := by
  have hf : (fun (a : ℚ) (p : Nat × Leg) =>
      match strategy.legs[p.1]? with
      | none => a
      | some strategyLeg =>
        if strategyLeg.type = InstrType.stock then a
        else if strategyLeg.action = Action.buy then
          a + p.2.premium * strategyLeg.quantity * 100
        else if strategyLeg.action = Action.sell then
          a - p.2.premium * strategyLeg.quantity * 100
        else a)
    = (fun (a : ℚ) (p : Nat × Leg) =>
      match strategy.legs[p.1]? with
      | none => a
      | some t => a +
        (if t.type = InstrType.stock then 0
         else if t.action = Action.buy then p.2.premium * t.quantity * 100
         else if t.action = Action.sell then -(p.2.premium * t.quantity * 100)
         else 0)) := by
    funext a p
    cases h : strategy.legs[p.1]? with
    | none => rfl
    | some t =>
      simp only
      split_ifs <;> ring
  rw [calculateNetPremium, List.enum_eq_enumFrom, hf]
  exact (foldl_enumFrom_zip_sum
    (fun leg t =>
      if t.type = InstrType.stock then 0
      else if t.action = Action.buy then leg.premium * t.quantity * 100
      else if t.action = Action.sell then -(leg.premium * t.quantity * 100)
      else 0) strategy.legs legs 0 0).trans (by rw [List.drop_zero, zero_add])

/-- Expiration profit/loss of a one-leg long-call strategy as a closed form. -/
theorem calculateProfitLoss_longCall_expiry (pricer : Pricer) (leg : Leg) (s : ℚ) :
    calculateProfitLoss pricer longCall [leg] s 0
      = (max (s - leg.strike) 0 - leg.premium) * 1 * 100 := by
  simp [calculateProfitLoss, longCall, List.enum, List.enumFrom]

/-- The implementation's edge test, evaluated against the list minimum,
is exactly the spec-side unbounded-loss condition. -/
theorem edgeFall_minimum_iff (ps : List ℚ) :
    edgeFall ps ps.minimum = true ↔ specEdgeUnboundedLoss ps := by
  match ps with
  | [] =>
    simp [edgeFall, specEdgeUnboundedLoss]
  | [a] =>
    simp [edgeFall, specEdgeUnboundedLoss, lt_irrefl]
  | a :: b :: t =>
    have hlen : (a :: b :: t).length = t.length + 2 := by simp
    rcases hrev : (a :: b :: t).reverse with _ | ⟨p, pr⟩
    · exfalso
      have := congrArg List.length hrev
      simp at this
    rcases pr with _ | ⟨q, u⟩
    · exfalso
      have := congrArg List.length hrev
      simp at this
    have hlast1 : (a :: b :: t)[(a :: b :: t).length - 1]? = some p := by
      have h := List.getElem?_reverse (l := a :: b :: t) (i := 0) (by simp)
      rw [hrev] at h
      simpa using h.symm
    have hlast2 : (a :: b :: t)[(a :: b :: t).length - 2]? = some q := by
      have h := List.getElem?_reverse (l := a :: b :: t) (i := 1) (by simp)
      rw [hrev] at h
      have h2 : (a :: b :: t).length - 1 - 1 = (a :: b :: t).length - 2 := by omega
      rw [h2] at h
      simpa using h.symm
    have h0 : (a :: b :: t)[0]? = some a := by simp
    have h1 : (a :: b :: t)[1]? = some b := by simp
    have hbool : edgeFall (a :: b :: t) (a :: b :: t).minimum
        = ((decide (a < b) && decide ((a : WithTop ℚ) = (a :: b :: t).minimum)) ||
           (decide (p < q) && decide ((p : WithTop ℚ) = (a :: b :: t).minimum))) := by
      unfold edgeFall
      rw [h0, h1, hlast1, hlast2]
    rw [hbool]
    simp only [Bool.or_eq_true, Bool.and_eq_true, decide_eq_true_eq]
    constructor
    · rintro (⟨hab, ham⟩ | ⟨hpq, hpm⟩)
      · exact Or.inl ⟨a, b, t, rfl, hab, (List.minimum_eq_coe_iff.mp ham.symm).2⟩
      · exact Or.inr ⟨p, q, u, hrev, hpq, (List.minimum_eq_coe_iff.mp hpm.symm).2⟩
    · rintro (⟨a', b', t', heq, hab, hmin⟩ | ⟨a', b', t', heq, hab, hmin⟩)
      · simp only [List.cons.injEq] at heq
        obtain ⟨rfl, rfl, rfl⟩ := heq
        exact Or.inl ⟨hab,
          (List.minimum_eq_coe_iff.mpr ⟨List.mem_cons_self _ _, hmin⟩).symm⟩
      · have hpq' : p = a' ∧ q = b' ∧ u = t' := by
          have h := hrev.symm.trans heq
          simpa using h
        obtain ⟨rfl, rfl, rfl⟩ := hpq'
        have hpmem : p ∈ a :: b :: t := by
          have : p ∈ (a :: b :: t).reverse := by rw [hrev]; exact List.mem_cons_self _ _
          exact List.mem_reverse.mp this
        exact Or.inr ⟨hab, (List.minimum_eq_coe_iff.mpr ⟨hpmem, hmin⟩).symm⟩

/-! ## Claim theorems -/

/-- C1: for the long-call strategy with one leg having strike 100, premium 5
and quantity 1, `calculateProfitLoss` at expiration follows the buy-option
rule `(intrinsic - premium) * quantity * 100`, and in particular returns
`-500` at stock price 100 and `+500` at stock price 110, for every external
pricer (the pricer is not consulted at expiration). -/
theorem claim_C1 : ∀ pricer : Pricer,
    (∀ s : ℚ, calculateProfitLoss pricer longCall [{ strike := 100, premium := 5 }] s 0
      = (max (s - 100) 0 - 5) * 1 * 100) ∧
    calculateProfitLoss pricer longCall [{ strike := 100, premium := 5 }] 100 0 = -500 ∧
    calculateProfitLoss pricer longCall [{ strike := 100, premium := 5 }] 110 0 = 500 := by
  intro pricer
  have hgen : ∀ s : ℚ, calculateProfitLoss pricer longCall [{ strike := 100, premium := 5 }] s 0
      = (max (s - 100) 0 - 5) * 1 * 100 := fun s =>
    calculateProfitLoss_longCall_expiry pricer { strike := 100, premium := 5 } s
  refine ⟨hgen, ?_, ?_⟩
  · rw [hgen 100]; norm_num [max_def]
  · rw [hgen 110]; norm_num [max_def]

unseal Rat.add Rat.mul Rat.sub Rat.inv in
/-- C2: `generatePriceRange(100, 1.5)` terminates (201 loop iterations
suffice) and returns a strictly increasing list of exactly 201 prices whose
first element is 50 and whose last element is 150. -/
theorem claim_C2 :
    ∃ l, generatePriceRange 100 (3/2) 201 = some l ∧ l.length = 201 ∧
      l.Chain' (· < ·) ∧ l.head? = some 50 ∧ l.getLast? = some 150 := by
  obtain ⟨l, hl, -, -, hlt⟩ :=
    generatePriceRange_pos_spec 100 (3/2) (by norm_num) (by norm_num)
  have hlen : (generatePriceRange 100 (3/2) 201).map List.length = some 201 := by decide
  have hhead : (generatePriceRange 100 (3/2) 201).map List.head? = some (some 50) := by decide
  have hlast : (generatePriceRange 100 (3/2) 201).map List.getLast? = some (some 150) := by
    decide
  rw [hl] at hlen hhead hlast
  simp only [Option.map_some'] at hlen hhead hlast
  exact ⟨l, hl, Option.some_inj.mp hlen, hlt (by norm_num),
    Option.some_inj.mp hhead, Option.some_inj.mp hlast⟩

unseal Rat.add Rat.mul Rat.sub Rat.inv in
/-- C3 counterexample: for the long call (strike 100, premium 5) at current
price 100, `findBreakevens` does NOT return the one-element list `[105]`:
the profit curve is exactly zero at the grid point 105, so both adjacent
grid pairs satisfy the inclusive sign-change test and the breakeven 105 is
recorded twice. -/
theorem claim_C3_counterexample :
    findBreakevens unusedPricer longCall [{ strike := 100, premium := 5 }] 100 201
      ≠ some [105] := by
  decide

unseal Rat.add Rat.mul Rat.sub Rat.inv in
/-- C3 amended: for the long call (strike 100, premium 5) at current price
100, `findBreakevens` returns `[105, 105]` — the correct breakeven price
105, registered once for each of the two grid pairs that touch the exact
zero at 105. -/
theorem claim_C3 :
    findBreakevens unusedPricer longCall [{ strike := 100, premium := 5 }] 100 201
      = some [105, 105] := by
  decide

/-- C4: the code rejects a non-stock leg with premium exactly 0.  With the
long-call strategy and the single leg `{strike: 100, premium: 0}` (a valid
leg per the spec: strike > 0, premium ≥ 0), `validateStrategy` returns
`isValid = false` with the error "Leg 1: Invalid premium", because the JS
test `!leg.premium || leg.premium < 0` treats the falsy value `0` as
invalid even though `0 < 0` is false. -/
theorem claim_C4 :
    validateStrategy (some longCall) [{ strike := 100, premium := 0 }]
      = { isValid := false, errors := ["Leg 1: Invalid premium"] } := by
  rfl

unseal Rat.add Rat.mul Rat.sub Rat.inv in
/-- C5 counterexample: for `timeToExpiry = 1 > 0`, a long-call leg whose
stored volatility is `0` (and likewise one with no stored volatility at
all) is NOT reported as an input error: `calculateProfitLoss` silently
values it with the substituted default volatility `0.25`.  Instantiating
the external pricer with the function that returns its volatility argument,
the result is `(0.25 - 0) * 1 * 100 = 25` in both cases — not the stored
volatility `0`, and not an error. -/
theorem claim_C5_counterexample :
    calculateProfitLoss volPricer longCall
        [{ strike := 100, premium := 0, volatility := some 0 }] 100 1 = 25 ∧
    calculateProfitLoss volPricer longCall
        [{ strike := 100, premium := 0 }] 100 1 = 25 := by
  constructor <;> decide

/-- C5 amended: for every strategy, every leg list and every nonzero
`timeToExpiry`, `calculateProfitLoss` values each option leg — buy or sell,
call or put — by handing the pricer `leg.riskFreeRate || 0.05` and
`leg.volatility || 0.25`: the stored values when they are present and
nonzero, and the silently substituted defaults `0.05` / `0.25` otherwise;
no input error is ever raised. -/
theorem claim_C5 : ∀ (pricer : Pricer) (strategy : Strategy) (legs : List Leg)
    (s t : ℚ), t ≠ 0 →
    calculateProfitLoss pricer strategy legs s t
      = ((legs.zip strategy.legs).map fun p =>
          if p.2.type = InstrType.stock then
            (if p.2.action = Action.own then (s - p.1.costBasis) * p.2.quantity else 0)
          else if p.2.action = Action.buy then
            (pricer p.2.type p.1.strike t (jsOr p.1.riskFreeRate (5/100))
              (jsOr p.1.volatility (25/100)) s - p.1.premium) * p.2.quantity * 100
          else if p.2.action = Action.sell then
            (p.1.premium - pricer p.2.type p.1.strike t (jsOr p.1.riskFreeRate (5/100))
              (jsOr p.1.volatility (25/100)) s) * p.2.quantity * 100
          else 0).sum := by
  intro pricer strategy legs s t ht
  have hf : (fun (totalPL : ℚ) (p : Nat × Leg) =>
      match strategy.legs[p.1]? with
      | none => totalPL
      | some strategyLeg =>
        let leg := p.2
        let legPL : ℚ :=
          if strategyLeg.type = InstrType.stock then
            if strategyLeg.action = Action.own then
              (s - leg.costBasis) * strategyLeg.quantity
            else 0
          else
            let optionValue : ℚ :=
              if t = 0 then
                if strategyLeg.type = InstrType.call then
                  max (s - leg.strike) 0
                else
                  max (leg.strike - s) 0
              else
                pricer strategyLeg.type leg.strike t
                  (jsOr leg.riskFreeRate (5/100)) (jsOr leg.volatility (25/100)) s
            if strategyLeg.action = Action.buy then
              (optionValue - leg.premium) * strategyLeg.quantity * 100
            else if strategyLeg.action = Action.sell then
              (leg.premium - optionValue) * strategyLeg.quantity * 100
            else 0
        totalPL + legPL)
    = (fun (a : ℚ) (p : Nat × Leg) =>
      match strategy.legs[p.1]? with
      | none => a
      | some tl => a +
        (if tl.type = InstrType.stock then
          (if tl.action = Action.own then (s - p.2.costBasis) * tl.quantity else 0)
        else if tl.action = Action.buy then
          (pricer tl.type p.2.strike t (jsOr p.2.riskFreeRate (5/100))
            (jsOr p.2.volatility (25/100)) s - p.2.premium) * tl.quantity * 100
        else if tl.action = Action.sell then
          (p.2.premium - pricer tl.type p.2.strike t (jsOr p.2.riskFreeRate (5/100))
            (jsOr p.2.volatility (25/100)) s) * tl.quantity * 100
        else 0)) := by
    funext a p
    cases h : strategy.legs[p.1]? with
    | none => rfl
    | some tl =>
      simp only [if_neg ht]
  rw [calculateProfitLoss, List.enum_eq_enumFrom, hf]
  exact (foldl_enumFrom_zip_sum
    (fun leg tl =>
      if tl.type = InstrType.stock then
        (if tl.action = Action.own then (s - leg.costBasis) * tl.quantity else 0)
      else if tl.action = Action.buy then
        (pricer tl.type leg.strike t (jsOr leg.riskFreeRate (5/100))
          (jsOr leg.volatility (25/100)) s - leg.premium) * tl.quantity * 100
      else if tl.action = Action.sell then
        (leg.premium - pricer tl.type leg.strike t (jsOr leg.riskFreeRate (5/100))
          (jsOr leg.volatility (25/100)) s) * tl.quantity * 100
      else 0) strategy.legs legs 0 0).trans (by rw [List.drop_zero, zero_add])

/-- Witness for C5 at a concrete input: the covered call (a stock leg plus a
sell-call template leg) whose call leg stores volatility 0. -/
theorem claim_C5_witness :
    (1 : ℚ) ≠ 0 ∧
    calculateProfitLoss volPricer coveredCall
        [{ costBasis := 100 }, { strike := 100, premium := 3, volatility := some 0 }] 100 1
      = ((([{ costBasis := 100 },
            { strike := 100, premium := 3, volatility := some 0 }] : List Leg).zip
            coveredCall.legs).map fun p =>
          if p.2.type = InstrType.stock then
            (if p.2.action = Action.own then ((100 : ℚ) - p.1.costBasis) * p.2.quantity
             else 0)
          else if p.2.action = Action.buy then
            (volPricer p.2.type p.1.strike 1 (jsOr p.1.riskFreeRate (5/100))
              (jsOr p.1.volatility (25/100)) 100 - p.1.premium) * p.2.quantity * 100
          else if p.2.action = Action.sell then
            (p.1.premium - volPricer p.2.type p.1.strike 1 (jsOr p.1.riskFreeRate (5/100))
              (jsOr p.1.volatility (25/100)) 100) * p.2.quantity * 100
          else 0).sum :=
  ⟨by norm_num,
   claim_C5 volPricer coveredCall
     [{ costBasis := 100 }, { strike := 100, premium := 3, volatility := some 0 }] 100 1
     (by norm_num)⟩

unseal Rat.add Rat.mul Rat.sub Rat.inv in
/-- C6 counterexample: `generatePriceRange` does not reject `rangeFactor ≤ 1`
— at `rangeFactor = 0.5` it returns the degenerate empty grid — and for a
valid `rangeFactor = 1.001` the returned grid is not strictly increasing:
its first two entries are both `99.9` (the rounding step collapses
consecutive prices whose gap is below one cent). -/
theorem claim_C6_counterexample :
    generatePriceRange 100 (1/2) 201 = some [] ∧
    ((generatePriceRange 100 (1001/1000) 201).getD [])[0]? = some (999/10) ∧
    ((generatePriceRange 100 (1001/1000) 201).getD [])[1]? = some (999/10) := by
  refine ⟨by decide, by decide, by decide⟩

/-- C6 amended: `generatePriceRange` never signals an error.  For
`rangeFactor < 1` (positive price) it returns the empty grid; for
`rangeFactor = 1` the loop never terminates; for `rangeFactor > 1` it
terminates within 201 iterations with a nonempty, nondecreasing grid that
is strictly increasing whenever the pre-rounding step is at least one cent,
i.e. whenever `currentPrice * (rangeFactor - 1) ≥ 1`. -/
theorem claim_C6 :
    (∀ c r : ℚ, 0 < c → r < 1 → ∀ fuel, generatePriceRange c r fuel = some []) ∧
    (∀ (c : ℚ) (fuel : Nat), generatePriceRange c 1 fuel = none) ∧
    (∀ c r : ℚ, 0 < c → 1 < r → ∃ l, generatePriceRange c r 201 = some l ∧
      l ≠ [] ∧ l.Chain' (· ≤ ·) ∧ (1 ≤ c * (r - 1) → l.Chain' (· < ·))) :=
  ⟨fun c r hc hr fuel => generatePriceRange_lt_one c r hc hr fuel,
   generatePriceRange_one_none,
   fun c r hc hr => generatePriceRange_pos_spec c r hc hr⟩

/-- Witness for C6 at concrete inputs. -/
theorem claim_C6_witness :
    (0 : ℚ) < 100 ∧ (1/2 : ℚ) < 1 ∧ generatePriceRange 100 (1/2) 300 = some [] :=
  ⟨by norm_num, by norm_num, claim_C6.1 100 (1/2) (by norm_num) (by norm_num) 300⟩

unseal Rat.add Rat.mul Rat.sub Rat.inv in
/-- C8: `calculateNetPremium` is the sum, over legs paired with their
option templates, of `+premium*quantity*100` for a bought option and
`-premium*quantity*100` for a sold one, stock legs contributing nothing;
in particular the covered call (own stock at cost basis 100, sell a call at
premium 3, quantity 1) yields `-300`. -/
theorem claim_C8 :
    (∀ (strategy : Strategy) (legs : List Leg),
      calculateNetPremium strategy legs
        = ((legs.zip strategy.legs).map fun p =>
            if p.2.type = InstrType.stock then 0
            else if p.2.action = Action.buy then p.1.premium * p.2.quantity * 100
            else if p.2.action = Action.sell then -(p.1.premium * p.2.quantity * 100)
            else 0).sum) ∧
    calculateNetPremium coveredCall [{ costBasis := 100 }, { premium := 3 }] = -300 :=
  ⟨calculateNetPremium_eq_sum, by decide⟩

/-- C9: for every positive price and range factor above 1 the grid loop of
`generatePriceRange` terminates — 201 iterations always suffice, because the
step `(maxPrice-minPrice)/200` is strictly positive — and the resulting
grid is nonempty; with range factor exactly 1 the step is zero and the loop
condition never becomes false (no amount of fuel terminates it). -/
theorem claim_C9 :
    (∀ c r : ℚ, 0 < c → 1 < r →
      ∃ l, generatePriceRange c r 201 = some l ∧ l ≠ []) ∧
    (∀ (c : ℚ) (fuel : Nat), generatePriceRange c 1 fuel = none) := by
  constructor
  · intro c r hc hr
    obtain ⟨l, hl, hne, -, -⟩ := generatePriceRange_pos_spec c r hc hr
    exact ⟨l, hl, hne⟩
  · exact generatePriceRange_one_none

/-- Witness for C9 at a concrete input. -/
theorem claim_C9_witness :
    (0 : ℚ) < 100 ∧ (1 : ℚ) < 3/2 ∧
    ∃ l, generatePriceRange 100 (3/2) 201 = some l ∧ l ≠ [] :=
  ⟨by norm_num, by norm_num, claim_C9.1 100 (3/2) (by norm_num) (by norm_num)⟩

unseal Rat.add Rat.mul Rat.sub Rat.inv in
/-- C10 counterexample: a detected crossing can have interpolation divisor
`|y0| + |y1| = 0`.  For the long-call leg with strike 1000 and premium 0 at
current price 100, the expiration profit curve is identically zero over the
whole grid, so the first two curve values are both `0`, the inclusive
crossing test fires, and the divisor is `0` (in JS the interpolation then
produces `NaN`). -/
theorem claim_C10_counterexample :
    (calculateProfitLossArray unusedPricer longCall [{ strike := 1000, premium := 0 }]
        ((generatePriceRange 100 (3/2) 201).getD []) 0)[0]? = some 0 ∧
    (calculateProfitLossArray unusedPricer longCall [{ strike := 1000, premium := 0 }]
        ((generatePriceRange 100 (3/2) 201).getD []) 0)[1]? = some 0 ∧
    isCrossing 0 0 = true ∧ |(0 : ℚ)| + |(0 : ℚ)| = 0 := by
  refine ⟨by decide, by decide, by decide, by norm_num⟩

/-- C10 amended: at every detected crossing whose two curve values are not
both zero, the interpolation divisor `|y0| + |y1|` is strictly positive and
the interpolated breakeven lies between the two grid points. -/
theorem claim_C10 : ∀ x0 x1 y0 y1 : ℚ, x0 ≤ x1 → isCrossing y0 y1 = true →
    ¬(y0 = 0 ∧ y1 = 0) →
    0 < |y0| + |y1| ∧ x0 ≤ interpolate x0 x1 y0 y1 ∧ interpolate x0 x1 y0 y1 ≤ x1 := by
  intro x0 x1 y0 y1 hx _ hnz
  have habs : 0 < |y0| + |y1| := by
    rcases not_and_or.mp hnz with h | h
    · have := abs_pos.mpr h
      linarith [abs_nonneg y1]
    · have := abs_pos.mpr h
      linarith [abs_nonneg y0]
  have hr0 : 0 ≤ |y0| / (|y0| + |y1|) := div_nonneg (abs_nonneg _) (le_of_lt habs)
  have hr1 : |y0| / (|y0| + |y1|) ≤ 1 := (div_le_one habs).mpr (by linarith [abs_nonneg y1])
  refine ⟨habs, ?_, ?_⟩
  · unfold interpolate
    nlinarith [mul_nonneg hr0 (sub_nonneg.mpr hx)]
  · unfold interpolate
    nlinarith [mul_nonneg (sub_nonneg.mpr hr1) (sub_nonneg.mpr hx)]

/-- Witness for C10 at a concrete input. -/
theorem claim_C10_witness :
    (100 : ℚ) ≤ 101 ∧ isCrossing (-50) 50 = true ∧ ¬((-50 : ℚ) = 0 ∧ (50 : ℚ) = 0) ∧
    (0 < |(-50 : ℚ)| + |(50 : ℚ)| ∧ 100 ≤ interpolate 100 101 (-50) 50 ∧
      interpolate 100 101 (-50) 50 ≤ 101) :=
  ⟨by norm_num, by norm_num [isCrossing], by norm_num,
   claim_C10 100 101 (-50) 50 (by norm_num) (by norm_num [isCrossing]) (by norm_num)⟩

/-- C7: for every strategy, leg list and positive current price,
`calculateMaxLoss` samples the expiration curve over
`generatePriceRange(currentPrice, 2)` — a grid starting at price 0 — and
returns `-Infinity` (`⊥`) exactly when an edge sample of that curve is the
curve minimum and is strictly lower than its inward neighbor; otherwise it
returns the finite sample minimum. -/
theorem claim_C7 (pricer : Pricer) (strategy : Strategy) (legs : List Leg) (c : ℚ)
    (hc : 0 < c) :
    ∃ grid, generatePriceRange c 2 201 = some grid ∧ grid ≠ [] ∧
      grid.head? = some 0 ∧
      (calculateMaxLoss pricer strategy legs c 201 = some ⊥ ↔
        specEdgeUnboundedLoss (calculateProfitLossArray pricer strategy legs grid 0)) ∧
      (¬ specEdgeUnboundedLoss (calculateProfitLossArray pricer strategy legs grid 0) →
        ∃ m : ℚ, calculateMaxLoss pricer strategy legs c 201
            = some ((m : WithTop ℚ) : WithBot (WithTop ℚ)) ∧
          m ∈ calculateProfitLossArray pricer strategy legs grid 0 ∧
          ∀ y ∈ calculateProfitLossArray pricer strategy legs grid 0, m ≤ y) := by
  obtain ⟨grid, hg, hne, -, -⟩ := generatePriceRange_pos_spec c 2 hc (by norm_num)
  have hhead : grid.head? = some 0 := by
    have hple : c * (2 - 2) ≤ c * 2 := by nlinarith
    have hg' : genFrom (c * 2) ((c * 2 - c * (2 - 2)) / 200) 201 (c * (2 - 2))
        = some grid := by
      simpa only [generatePriceRange] using hg
    obtain ⟨t, rfl⟩ := genFrom_some_cons _ _ _ _ _ hple hg'
    have h0 : round2 (c * (2 - 2)) = 0 := by
      have hz : c * (2 - 2) = 0 := by ring
      rw [hz]
      unfold round2
      norm_num
    rw [h0]
    rfl
  have hpsne : calculateProfitLossArray pricer strategy legs grid 0 ≠ [] := by
    intro h
    exact hne (List.map_eq_nil_iff.mp h)
  have hml : calculateMaxLoss pricer strategy legs c 201
      = some (if edgeFall (calculateProfitLossArray pricer strategy legs grid 0)
                (calculateProfitLossArray pricer strategy legs grid 0).minimum
              then (⊥ : WithBot (WithTop ℚ))
              else ((calculateProfitLossArray pricer strategy legs grid 0).minimum :
                WithBot (WithTop ℚ))) := by
    rw [calculateMaxLoss, hg]
    rfl
  refine ⟨grid, hg, hne, hhead, ?_, ?_⟩
  · rcases hE : edgeFall (calculateProfitLossArray pricer strategy legs grid 0)
        (calculateProfitLossArray pricer strategy legs grid 0).minimum with _ | _
    · rw [hml, if_neg (by rw [hE]; exact Bool.false_ne_true)]
      refine iff_of_false ?_ ?_
      · intro h
        exact WithBot.coe_ne_bot (Option.some_inj.mp h)
      · intro h
        have := (edgeFall_minimum_iff _).mpr h
        rw [hE] at this
        exact Bool.false_ne_true this
    · rw [hml, if_pos (by rw [hE])]
      exact iff_of_true rfl ((edgeFall_minimum_iff _).mp hE)
  · intro hn
    have hE : ¬ (edgeFall (calculateProfitLossArray pricer strategy legs grid 0)
        (calculateProfitLossArray pricer strategy legs grid 0).minimum = true) := by
      intro h
      exact hn ((edgeFall_minimum_iff _).mp h)
    have hmin := List.minimum_ne_top_of_ne_nil hpsne
    obtain ⟨m, hm⟩ := WithTop.ne_top_iff_exists.mp hmin
    refine ⟨m, ?_, (List.minimum_eq_coe_iff.mp hm.symm).1,
      (List.minimum_eq_coe_iff.mp hm.symm).2⟩
    rw [hml, if_neg hE, ← hm]

/-- Witness for C7 at a concrete input. -/
theorem claim_C7_witness :
    (0 : ℚ) < 100 ∧
    ∃ grid, generatePriceRange 100 2 201 = some grid ∧ grid ≠ [] ∧
      grid.head? = some 0 ∧
      (calculateMaxLoss unusedPricer longCall [{ strike := 100, premium := 5 }] 100 201
          = some ⊥ ↔
        specEdgeUnboundedLoss (calculateProfitLossArray unusedPricer longCall
          [{ strike := 100, premium := 5 }] grid 0)) ∧
      (¬ specEdgeUnboundedLoss (calculateProfitLossArray unusedPricer longCall
          [{ strike := 100, premium := 5 }] grid 0) →
        ∃ m : ℚ, calculateMaxLoss unusedPricer longCall [{ strike := 100, premium := 5 }]
            100 201 = some ((m : WithTop ℚ) : WithBot (WithTop ℚ)) ∧
          m ∈ calculateProfitLossArray unusedPricer longCall
            [{ strike := 100, premium := 5 }] grid 0 ∧
          ∀ y ∈ calculateProfitLossArray unusedPricer longCall
            [{ strike := 100, premium := 5 }] grid 0, m ≤ y) :=
  ⟨by norm_num,
   claim_C7 unusedPricer longCall [{ strike := 100, premium := 5 }] 100 (by norm_num)⟩

end OptionsStrategies
